import Mathlib

/-!
# Verification of the `pr_qr_pdf` layout pipeline

A shallow embedding of `src/pr_qr_pdf.py` — a script that derives a range of
textual codes, composes one SVG per code (QR symbol + label), rasterizes each
to a fixed-size PNG, and tiles the rasters onto A4 pages of a single PDF.

Conventions of the embedding:
* Python integers are `Int` (or `Nat` where the source value is evidently
  nonnegative); Python's floor division `//` on integers is `Int.fdiv`.
* The floating-point products `A4_WIDTH_MM * MM_TO_INCH * DPI` are modelled
  by exact rational arithmetic: the exact values (2480.31…, 3507.87…) are
  several tenths away from the nearest integers while double rounding error
  is below 1e-10, so `int(...)` truncation of the float and `Rat.floor` of
  the exact rational coincide.
* External collaborators (`segno`, `cairosvg`, PIL) are abstract parameters:
  `segno.make` is a function argument producing a module count and an inline
  SVG body, both pure functions of their arguments.
-/

namespace PrQrPdf

/-! ## Fixed configuration constants of `main` (source lines 56-57, 93-104) -/

/-- `SIZE = 400`, the pixel edge of the full unit image. -/
def SIZE : Nat := 400

/-- `QR_SIZE = 300`, the pixel edge of the QR symbol inside the unit image. -/
def QR_SIZE : Nat := 300

/-- `DPI = 300`. -/
def DPI : Nat := 300

/-- `MM_TO_INCH = 1 / 25.4`, as an exact rational. -/
def MM_TO_INCH : ℚ := 1 / 25.4

/-- `A4_WIDTH_MM = 210`. -/
def A4_WIDTH_MM : ℚ := 210

/-- `A4_HEIGHT_MM = 297`. -/
def A4_HEIGHT_MM : ℚ := 297

/-- `A4_WIDTH_PX = int(A4_WIDTH_MM * MM_TO_INCH * DPI)`.  Python `int()`
truncates toward zero; the value is positive, so this is the floor.  The
float product is within 1e-10 of the exact rational 2480.31…, so the
truncated values agree. -/
def A4_WIDTH_PX : ℤ := ⌊A4_WIDTH_MM * MM_TO_INCH * (DPI : ℚ)⌋

/-- `A4_HEIGHT_PX = int(A4_HEIGHT_MM * MM_TO_INCH * DPI)` (exact value
3507.87…, same remark as for the width). -/
def A4_HEIGHT_PX : ℤ := ⌊A4_HEIGHT_MM * MM_TO_INCH * (DPI : ℚ)⌋

/-- `COLS = 5`. -/
def COLS : Nat := 5

/-- `ROWS = 6`. -/
def ROWS : Nat := 6

/-- `IMAGES_PER_PAGE = COLS * ROWS`. -/
def IMAGES_PER_PAGE : Nat := COLS * ROWS

/-! ## CodeSequencer: `codes = [f"P{i:04d}" for i in range(start, end + 1)]`
(source line 73).  We model Python's `d` format spec from scratch: decimal
digit list of a nonnegative integer, sign-aware zero padding to the field
width (the `-` sign precedes the pad zeros, as Python's `0` fill does). -/

/-- Decimal digit characters of `n`, most significant first (the digits
Python's `d` conversion prints for a nonnegative integer). -/
def natDigits (n : Nat) : List Char :=
  if h : n < 10 then [Char.ofNat (48 + n)]
  else natDigits (n / 10) ++ [Char.ofNat (48 + n % 10)]
  decreasing_by exact Nat.div_lt_self (by omega) (by omega)

/-- Left pad with `'0'` to width `w` (Python `str.zfill` on an unsigned
digit string). -/
def zfill (w : Nat) (s : List Char) : List Char :=
  List.replicate (w - s.length) '0' ++ s

/-- Python `f"{i:0{w}d}"`: sign-aware zero padding — a negative number
carries a leading `'-'` and its magnitude is padded to `w - 1`. -/
def intFormat (w : Nat) (i : ℤ) : List Char :=
  if i < 0 then '-' :: zfill (w - 1) (natDigits (-i).toNat)
  else zfill w (natDigits i.toNat)

/-- One code string: `f"P{i:04d}"`. -/
def codeOf (i : ℤ) : String :=
  "P" ++ String.mk (intFormat 4 i)

/-- `range(start, end + 1)` mapped through `codeOf`: the full code list of a
run. -/
def codes (start endI : ℤ) : List String :=
  (List.range (endI + 1 - start).toNat).map (fun (k : Nat) => codeOf (start + (k : ℤ)))

/-! ## PageCompositor geometry (source lines 101-123) -/

/-- The grid/page parameters the compositor works from: grid shape, unit
image pixel size, page pixel size.  In `main` these are
`(COLS, ROWS, SIZE, SIZE, A4_WIDTH_PX, A4_HEIGHT_PX)`. -/
structure GridParams where
  cols : Nat
  rows : Nat
  imgW : Nat
  imgH : Nat
  pageW : ℤ
  pageH : ℤ
  deriving DecidableEq, Repr

/-- `h_space = (A4_WIDTH_PX - (COLS * img_w)) // (COLS + 1)` — Python floor
division, hence `Int.fdiv`. -/
def h_space (p : GridParams) : ℤ :=
  (p.pageW - p.cols * p.imgW).fdiv (p.cols + 1)

/-- `v_space = (A4_HEIGHT_PX - (ROWS * img_h)) // (ROWS + 1)`. -/
def v_space (p : GridParams) : ℤ :=
  (p.pageH - p.rows * p.imgH).fdiv (p.rows + 1)

/-- `row = j // COLS` for the `j`-th image of a batch. -/
def rowOf (p : GridParams) (j : Nat) : Nat := j / p.cols

/-- `col = j % COLS`. -/
def colOf (p : GridParams) (j : Nat) : Nat := j % p.cols

/-- `x = h_space + col * (img_w + h_space)`. -/
def xOffset (p : GridParams) (j : Nat) : ℤ :=
  h_space p + colOf p j * (p.imgW + h_space p)

/-- `y = v_space + row * (img_h + v_space)`. -/
def yOffset (p : GridParams) (j : Nat) : ℤ :=
  v_space p + rowOf p j * (p.imgH + v_space p)

/-- The half-open pixel rectangles pasted for batch indices `j` and `k`
intersect: each one's left edge is left of the other's right edge, and
likewise vertically. -/
def overlaps (p : GridParams) (j k : Nat) : Prop :=
  xOffset p j < xOffset p k + p.imgW ∧ xOffset p k < xOffset p j + p.imgW ∧
  yOffset p j < yOffset p k + p.imgH ∧ yOffset p k < yOffset p j + p.imgH

instance (p : GridParams) (j k : Nat) : Decidable (overlaps p j k) := by
  unfold overlaps; infer_instance

/-- The parameters `main` composes pages with. -/
def mainParams : GridParams :=
  { cols := COLS, rows := ROWS, imgW := SIZE, imgH := SIZE,
    pageW := A4_WIDTH_PX, pageH := A4_HEIGHT_PX }

/-- `for i in range(0, len(images), IMAGES_PER_PAGE): images[i:i+IMAGES_PER_PAGE]`
(source line 113 and 117): the consecutive batches of size `k` of a list.
The source's step is the constant `IMAGES_PER_PAGE = 30 > 0`; a step of `0`
would raise `ValueError` in Python, and this model returns `[]` on that dead
branch. -/
def chunks (k : Nat) (l : List α) : List (List α) :=
  if k = 0 then []
  else if l.isEmpty then []
  else l.take k :: chunks k (l.drop k)
  termination_by l.length
  decreasing_by
    rename_i hk hl
    simp only [List.length_drop]
    cases l with
    | nil => simp [List.isEmpty] at hl
    | cons a t => simp only [List.length_cons]; omega

/-- The list of pixel positions `(x, y)` pasted for a batch of `n` images
(the loop of source lines 117-122, one `page.paste(img, (x, y))` per index).
The source performs these pastes unconditionally — there is no validation
between computing the spacings and pasting. -/
def placeBatch (p : GridParams) (n : Nat) : List (ℤ × ℤ) :=
  (List.range n).map (fun j => (xOffset p j, yOffset p j))

/-! ## SymbolComposer: `generate_qr_svg` (source lines 8-44) -/

/-- The value `segno.make(code, error='m', micro=False)` is used for: its
native module-grid edge `qr.symbol_size(1)[0]` and its inline SVG body
`qr.svg_inline(scale=…, omitsize=True, dark='black', light='white')` as a
pure function of the requested scale.  `segno` is an external collaborator;
it is modelled as an abstract deterministic value. -/
structure SegnoQR where
  symbolSize : Nat
  svgInline : ℚ → String

/-- Ambient sources of nondeterminism a Python process could read (clock,
RNG).  `generate_qr_svg` is given one and — like the source, which calls no
time or random API — never reads it; determinism is stated as independence
from this argument. -/
structure Env where
  clock : Nat
  entropy : Nat → Nat

/-- Characters of Python's `\s` class (`[ \t\n\r\f\v]`). -/
def isPySpace (c : Char) : Bool :=
  c = ' ' || c = '\t' || c = '\n' || c = '\r' || c = '\x0b' || c = '\x0c'

/-- Python `s.split(sep, 1)[1]`: everything after the first occurrence of
`sep`.  (When `sep` does not occur Python raises `IndexError`; the source
only takes this branch after `startswith('<?xml')`.  The model returns the
string unchanged on that branch.) -/
def pySplitOnce (sep s : String) : String :=
  match s.splitOn sep with
  | [] => s
  | [x] => x
  | _ :: rest => String.intercalate sep rest

/-- Everything after the first `'>'`, or `[]` when there is none. -/
def dropThroughGt : List Char → List Char
  | [] => []
  | c :: cs => if c = '>' then cs else dropThroughGt cs

/-- `re.sub(r'^.*?<svg[^>]*>', '', s, flags=re.DOTALL)`: non-greedily delete
through the end of the first `<svg …>` opening tag — i.e. through the first
`'>'` at or after the first `"<svg"`.  No match (no `"<svg"`, or no `'>'`
after it) leaves the string unchanged. -/
def stripToSvgOpen (s : String) : String :=
  match s.splitOn "<svg" with
  | [] => s
  | [_] => s
  | _ :: rest =>
      let tail := String.intercalate "<svg" rest
      if tail.toList.contains '>' then String.mk (dropThroughGt tail.toList) else s

/-- `re.sub(r'</svg>\s*$', '', s, flags=re.DOTALL)`: delete a trailing
`"</svg>"` together with any whitespace after it; no match leaves the
string unchanged. -/
def stripSvgClose (s : String) : String :=
  let r := (s.toList.reverse).dropWhile isPySpace
  if r.take 6 = [ '>', 'g', 'v', 's', '/', '<' ] then String.mk ((r.drop 6).reverse)
  else s

/-- Python `str.strip()`: remove leading and trailing whitespace. -/
def pyStrip (s : String) : String :=
  String.mk (((s.toList.dropWhile isPySpace).reverse.dropWhile isPySpace).reverse)

/-- `qr_x = (size - qr_size) // 2` (and `qr_y`, identical). -/
def qrOffset (size qr_size : Nat) : ℤ :=
  ((size : ℤ) - qr_size).fdiv 2

/-- The head of the composed document (the f-string of source line 43 up to
the width attribute): XML declaration, then the outer `<svg>` tag. -/
def svgDocHead : String :=
  "<?xml version=\"1.0\" encoding=\"utf-8\"?>\n<svg xmlns=\"http://www.w3.org/2000/svg\" width=\""

/-- `generate_qr_svg(code, size, qr_size)` (source lines 8-44).  The
`label_font_size = int(size * 0.10)` float product is modelled as the exact
rational `size / 10` floored (they agree for every `size`: `0.1` rounds up
as a double, so the float product never falls below an integer the exact
product reaches). -/
def generate_qr_svg (make : String → SegnoQR) (_env : Env) (code : String)
    (size qr_size : Nat) : String :=
  let qr_x : ℤ := qrOffset size qr_size
  let qr_y : ℤ := qrOffset size qr_size
  let label_font_size : ℤ := ((size : ℚ) * (1/10)).floor
  let label_y : ℤ := qr_y + qr_size
  let qr := make code
  let scale : ℚ := (qr_size : ℚ) / qr.symbolSize
  let raw := qr.svgInline scale
  let qr_svg := if raw.startsWith "<?xml" then pySplitOnce "?>" raw else raw
  let inner := stripSvgClose (stripToSvgOpen qr_svg)
  svgDocHead
    ++ toString size ++ "\" height=\"" ++ toString size ++ "\" viewBox=\"0 0 "
    ++ toString size ++ " " ++ toString size
    ++ "\">\n    <rect width=\"100%\" height=\"100%\" fill=\"white\"/>\n    <g transform=\"translate("
    ++ toString qr_x ++ "," ++ toString qr_y ++ ")\">\n        "
    ++ pyStrip inner
    ++ "\n    </g>\n    <text x=\"" ++ toString (size / 2) ++ "\" y=\"" ++ toString label_y
    ++ "\" font-size=\"" ++ toString label_font_size
    ++ "\" font-family=\"Helvetica, Arial, sans-serif\" text-anchor=\"middle\" fill=\"black\">"
    ++ code ++ "</text>\n</svg>"

/-! ## CLI surface and run outcome (source lines 46-129) -/

/-- Python `int(s)` on a command-line argument: optional sign followed by
decimal digits.  (Python also tolerates surrounding whitespace and interior
underscores; the arguments this development evaluates on are plain signed
digit strings, where the semantics coincide.)  `none` models an uncaught
`ValueError`. -/
def pyIntParse (s : String) : Option ℤ :=
  let signed : ℤ × List Char :=
    match s.toList with
    | '-' :: rest => (-1, rest)
    | '+' :: rest => (1, rest)
    | rest => (1, rest)
  if signed.2 ≠ [] ∧ signed.2.all (fun c => '0' ≤ c && c ≤ '9') then
    some (signed.1 * signed.2.foldl (fun a c => 10 * a + ((c.toNat : ℤ) - 48)) 0)
  else none

/-- The observable outcome of one invocation: process exit status, whether
the usage line was printed, every file path written (in write order), and
the final message printed. -/
structure RunResult where
  exitCode : Nat
  usageShown : Bool
  filesWritten : List String
  finalMessage : String
  deriving DecidableEq, Repr

/-- The body of `main` after a range `[start, end]` is in hand (source
lines 73-129): write one SVG and one PNG per code, then either assemble the
PDF (non-empty case) or print `"No PNGs generated!"` — in both cases the
process ends normally, exit status `0`. -/
def runRange (start endI : ℤ) : RunResult :=
  let cs := codes start endI
  let files := (cs.map (fun c =>
    ["qr_svgs/" ++ c ++ ".svg", "qr_pngs/" ++ c ++ ".png"])).flatten
  if cs.isEmpty then
    { exitCode := 0, usageShown := false, filesWritten := files,
      finalMessage := "No PNGs generated!" }
  else
    { exitCode := 0, usageShown := false,
      filesWritten := files ++ ["qr_codes.pdf"],
      finalMessage := "✅ Created qr_codes.pdf with "
        ++ toString (chunks IMAGES_PER_PAGE cs).length ++ " page(s), "
        ++ toString cs.length ++ " QR codes." }

/-- `main` as a function of `sys.argv` (program name included): the
argument dispatch of source lines 60-70.  A non-integer argument raises an
uncaught `ValueError`, which terminates the interpreter with a traceback —
exit status `1`, no usage message. -/
def mainRun (argv : List String) : RunResult :=
  if argv.length = 1 then runRange 301 480
  else if argv.length = 3 then
    match pyIntParse (argv.getD 1 ""), pyIntParse (argv.getD 2 "") with
    | some s, some e => runRange s e
    | _, _ => { exitCode := 1, usageShown := false, filesWritten := [],
                finalMessage := "ValueError: invalid literal for int()" }
  else
    { exitCode := 1, usageShown := true, filesWritten := [],
      finalMessage := "Usage: python qr_to_pdf.py <start> <end>" }

/-! ## Helper lemmas -/

/-- Python's `//` by a positive count is the rational floor of the exact
quotient. -/
theorem fdiv_eq_ratFloor (a : ℤ) (b : ℕ) (hb : 0 < b) :
    a.fdiv b = ⌊(a : ℚ) / (b : ℚ)⌋ := by
  rw [Rat.floor_intCast_div_natCast, Int.fdiv_eq_ediv _ (by positivity)]

/-- Floor division of a negative numerator by a positive denominator is
negative. -/
theorem fdiv_neg_of_neg (a b : ℤ) (ha : a < 0) (hb : 0 < b) : a.fdiv b < 0 := by
  rw [Int.fdiv_eq_ediv _ (le_of_lt hb)]
  exact Int.ediv_neg' ha hb

theorem A4_WIDTH_PX_eq : A4_WIDTH_PX = 2480 := by
  unfold A4_WIDTH_PX A4_WIDTH_MM MM_TO_INCH DPI
  rw [show (210 : ℚ) * (1 / 25.4) * ((300 : ℕ) : ℚ)
        = ((315000 : ℤ) : ℚ) / ((127 : ℕ) : ℚ) by norm_num]
  rw [Rat.floor_intCast_div_natCast]
  decide

theorem A4_HEIGHT_PX_eq : A4_HEIGHT_PX = 3507 := by
  unfold A4_HEIGHT_PX A4_HEIGHT_MM MM_TO_INCH DPI
  rw [show (297 : ℚ) * (1 / 25.4) * ((300 : ℕ) : ℚ)
        = ((445500 : ℤ) : ℚ) / ((127 : ℕ) : ℚ) by norm_num]
  rw [Rat.floor_intCast_div_natCast]
  decide

theorem mainParams_eq :
    mainParams = { cols := 5, rows := 6, imgW := 400, imgH := 400,
                   pageW := 2480, pageH := 3507 } := by
  unfold mainParams COLS ROWS SIZE
  rw [A4_WIDTH_PX_eq, A4_HEIGHT_PX_eq]

theorem h_space_nonneg (p : GridParams) (hfit : ((p.cols * p.imgW : ℕ) : ℤ) ≤ p.pageW) :
    0 ≤ h_space p := by
  unfold h_space
  apply Int.fdiv_nonneg _ (by positivity)
  have h : ((p.cols * p.imgW : ℕ) : ℤ) = (p.cols : ℤ) * (p.imgW : ℤ) := by push_cast; ring
  omega

theorem v_space_nonneg (p : GridParams) (hfit : ((p.rows * p.imgH : ℕ) : ℤ) ≤ p.pageH) :
    0 ≤ v_space p := by
  unfold v_space
  apply Int.fdiv_nonneg _ (by positivity)
  have h : ((p.rows * p.imgH : ℕ) : ℤ) = (p.rows : ℤ) * (p.imgH : ℤ) := by push_cast; ring
  omega

/-- A strictly smaller column index keeps the whole image strictly to the
left of the other image's left edge (nonnegative spacing). -/
theorem xOffset_gap (p : GridParams) (hs : 0 ≤ h_space p) {j k : Nat}
    (h : colOf p j < colOf p k) : xOffset p j + p.imgW ≤ xOffset p k := by
  unfold xOffset
  have h1 : (colOf p j : ℤ) + 1 ≤ (colOf p k : ℤ) := by exact_mod_cast h
  have hA : (0 : ℤ) ≤ (p.imgW : ℤ) + h_space p := add_nonneg (by positivity) hs
  nlinarith [mul_le_mul_of_nonneg_right h1 hA]

theorem yOffset_gap (p : GridParams) (hs : 0 ≤ v_space p) {j k : Nat}
    (h : rowOf p j < rowOf p k) : yOffset p j + p.imgH ≤ yOffset p k := by
  unfold yOffset
  have h1 : (rowOf p j : ℤ) + 1 ≤ (rowOf p k : ℤ) := by exact_mod_cast h
  have hA : (0 : ℤ) ≤ (p.imgH : ℤ) + v_space p := add_nonneg (by positivity) hs
  nlinarith [mul_le_mul_of_nonneg_right h1 hA]

/-- Two batch indices in the same grid cell are the same index. -/
theorem index_eq_of_cell_eq (p : GridParams) {j k : Nat}
    (hrow : rowOf p j = rowOf p k) (hcol : colOf p j = colOf p k) : j = k := by
  calc j = p.cols * rowOf p j + colOf p j := (Nat.div_add_mod j p.cols).symm
    _ = p.cols * rowOf p k + colOf p k := by rw [hrow, hcol]
    _ = k := Nat.div_add_mod k p.cols

/-! ## Claim theorems: page-compositor geometry -/

/-- C1: for a batch of at most `COLS × ROWS` same-size unit images placed
with spacings `h_space = (page_w_px - COLS*img_w) // (COLS+1)` and
`v_space = (page_h_px - ROWS*img_h) // (ROWS+1)`, under the fit
precondition `COLS*img_w ≤ page_w_px` and `ROWS*img_h ≤ page_h_px`, no two
placed images have overlapping pixel rectangles. -/
theorem compositor_no_overlap (p : GridParams) (n j k : Nat)
    (hfitW : ((p.cols * p.imgW : ℕ) : ℤ) ≤ p.pageW)
    (hfitH : ((p.rows * p.imgH : ℕ) : ℤ) ≤ p.pageH)
    (hn : n ≤ p.cols * p.rows) (hj : j < n) (hk : k < n) (hne : j ≠ k) :
    ¬ overlaps p j k := by
  intro hov
  obtain ⟨h1, h2, h3, h4⟩ := hov
  have hsW : 0 ≤ h_space p := h_space_nonneg p hfitW
  have hsH : 0 ≤ v_space p := v_space_nonneg p hfitH
  rcases Nat.lt_trichotomy (colOf p j) (colOf p k) with hcl | hcl | hcl
  · exact absurd h2 (not_lt.mpr (xOffset_gap p hsW hcl))
  · rcases Nat.lt_trichotomy (rowOf p j) (rowOf p k) with hrw | hrw | hrw
    · exact absurd h4 (not_lt.mpr (yOffset_gap p hsH hrw))
    · exact hne (index_eq_of_cell_eq p hrw hcl)
    · exact absurd h3 (not_lt.mpr (yOffset_gap p hsH hrw))
  · exact absurd h1 (not_lt.mpr (xOffset_gap p hsW hcl))

/-- The run's own grid parameters with the page size evaluated — used to
instantiate witnesses (equal to `mainParams` by `mainParams_eq`). -/
def concreteParams : GridParams :=
  { cols := 5, rows := 6, imgW := 400, imgH := 400, pageW := 2480, pageH := 3507 }

/-- Witness for C1: the run's own parameters, a full batch of 30, cells 0
and 1. -/
theorem compositor_no_overlap_witness : ¬ overlaps concreteParams 0 1 :=
  compositor_no_overlap _ 30 0 1 (by decide) (by decide)
    (by decide) (by decide) (by decide) (by decide)

/-- The code's `h_space` (Python `//`) equals the spec's
`floor((page_w_px - COLS × img_w) / (COLS + 1))` over exact rationals. -/
theorem h_space_eq_floor (p : GridParams) :
    h_space p = ⌊((p.pageW : ℚ) - p.cols * p.imgW) / (p.cols + 1)⌋ := by
  unfold h_space
  rw [show ((p.cols : ℤ) + 1) = ((p.cols + 1 : ℕ) : ℤ) by push_cast; ring]
  rw [fdiv_eq_ratFloor _ _ (Nat.succ_pos _)]
  congr 1
  push_cast
  ring

theorem v_space_eq_floor (p : GridParams) :
    v_space p = ⌊((p.pageH : ℚ) - p.rows * p.imgH) / (p.rows + 1)⌋ := by
  unfold v_space
  rw [show ((p.rows : ℤ) + 1) = ((p.rows + 1 : ℕ) : ℤ) by push_cast; ring]
  rw [fdiv_eq_ratFloor _ _ (Nat.succ_pos _)]
  congr 1
  push_cast
  ring

/-- C3: the `j`-th image of a batch goes to grid cell
`(row, col) = (j div COLS, j mod COLS)` at pixel offset
`x = h_space + col*(img_w + h_space)`, `y = v_space + row*(img_h + v_space)`,
with `h_space`/`v_space` the floors of the spec's exact quotients; the
margin before the first column/row equals the inter-image spacing (the
offset of cell 0 is exactly one spacing, and horizontally adjacent cells
are separated by exactly one spacing). -/
theorem placement_formula (p : GridParams) (j : Nat) :
    h_space p = ⌊((p.pageW : ℚ) - p.cols * p.imgW) / (p.cols + 1)⌋ ∧
    v_space p = ⌊((p.pageH : ℚ) - p.rows * p.imgH) / (p.rows + 1)⌋ ∧
    rowOf p j = j / p.cols ∧ colOf p j = j % p.cols ∧
    xOffset p j = h_space p + (j % p.cols : ℕ) * ((p.imgW : ℤ) + h_space p) ∧
    yOffset p j = v_space p + (j / p.cols : ℕ) * ((p.imgH : ℤ) + v_space p) ∧
    xOffset p 0 = h_space p ∧ yOffset p 0 = v_space p ∧
    (colOf p j + 1 < p.cols →
      xOffset p (j + 1) = xOffset p j + p.imgW + h_space p ∧
      yOffset p (j + 1) = yOffset p j) := by
  refine ⟨h_space_eq_floor p, v_space_eq_floor p, rfl, rfl, rfl, rfl,
    by simp [xOffset, colOf], by simp [yOffset, rowOf], ?_⟩
  intro hlt
  have hlt' : j % p.cols + 1 < p.cols := hlt
  have hc : 0 < p.cols := by omega
  have hj : j + 1 = p.cols * (j / p.cols) + (j % p.cols + 1) := by
    have := Nat.div_add_mod j p.cols
    omega
  have hcol : colOf p (j + 1) = colOf p j + 1 := by
    show (j + 1) % p.cols = j % p.cols + 1
    rw [hj, Nat.mul_add_mod, Nat.mod_eq_of_lt hlt']
  have hrow : rowOf p (j + 1) = rowOf p j := by
    show (j + 1) / p.cols = j / p.cols
    rw [hj, Nat.mul_add_div hc, Nat.div_eq_of_lt hlt', Nat.add_zero]
  constructor
  · unfold xOffset
    rw [hcol]
    push_cast
    ring
  · unfold yOffset
    rw [hrow]

/-- Witness for C3: the run's parameters at batch index 7 (cell row 1,
column 2); index 8 sits one image-width plus one spacing to its right. -/
theorem placement_formula_witness :
    colOf concreteParams 7 + 1 < concreteParams.cols ∧
    (xOffset concreteParams (7 + 1)
        = xOffset concreteParams 7 + concreteParams.imgW + h_space concreteParams ∧
      yOffset concreteParams (7 + 1) = yOffset concreteParams 7) :=
  ⟨by decide, (placement_formula concreteParams 7).2.2.2.2.2.2.2.2 (by decide)⟩

/-- C4 counterexample: with `COLS × img_w = 2000 > 1000 = page_w_px` the
compositor raises nothing — both images of a batch of two are pasted
anyway, at overlapping rectangles (the spacing went negative). -/
theorem grid_overflow_not_raised :
    ((1000 : ℤ) < ((5 * 400 : ℕ) : ℤ)) ∧
    placeBatch { cols := 5, rows := 6, imgW := 400, imgH := 400,
                 pageW := 1000, pageH := 3507 } 2 = [(-167, 158), (66, 158)] ∧
    overlaps { cols := 5, rows := 6, imgW := 400, imgH := 400,
               pageW := 1000, pageH := 3507 } 0 1 := by
  refine ⟨by decide, by decide, ?_⟩
  unfold overlaps
  refine ⟨by decide, by decide, by decide, by decide⟩

/-- C4 amended: the code performs no overflow validation and defines no
`GridOverflowError`; whenever `COLS × img_w > page_w_px` the computed
spacing is negative, the first image is pasted starting at a negative `x`
(off the page), and every image of the batch is still pasted. -/
theorem overflow_places_offpage (p : GridParams) (n : Nat)
    (hover : p.pageW < ((p.cols * p.imgW : ℕ) : ℤ)) :
    h_space p < 0 ∧ xOffset p 0 = h_space p ∧ xOffset p 0 < 0 ∧
    (placeBatch p n).length = n := by
  have hneg : p.pageW - (p.cols : ℤ) * (p.imgW : ℤ) < 0 := by
    have h : ((p.cols * p.imgW : ℕ) : ℤ) = (p.cols : ℤ) * (p.imgW : ℤ) := by
      push_cast; ring
    omega
  have h0 : h_space p < 0 := fdiv_neg_of_neg _ _ hneg (by positivity)
  have hx : xOffset p 0 = h_space p := by simp [xOffset, colOf]
  exact ⟨h0, hx, by rw [hx]; exact h0, by simp [placeBatch]⟩

/-- Witness for C4's amended statement: a 1000-pixel-wide page cannot fit
five 400-pixel images. -/
theorem overflow_places_offpage_witness :
    h_space { cols := 5, rows := 6, imgW := 400, imgH := 400,
              pageW := 1000, pageH := 3507 } < 0 ∧
    xOffset { cols := 5, rows := 6, imgW := 400, imgH := 400,
              pageW := 1000, pageH := 3507 } 0
      = h_space { cols := 5, rows := 6, imgW := 400, imgH := 400,
                  pageW := 1000, pageH := 3507 } ∧
    xOffset { cols := 5, rows := 6, imgW := 400, imgH := 400,
              pageW := 1000, pageH := 3507 } 0 < 0 ∧
    (placeBatch { cols := 5, rows := 6, imgW := 400, imgH := 400,
                  pageW := 1000, pageH := 3507 } 2).length = 2 :=
  overflow_places_offpage _ 2 (by decide)

/-- C5 counterexample: the source computes the page height with `int()`
(truncation) on `297 * (1/25.4) * 300 = 3507.87…`, giving 3507 — not the
claimed `round(...)`, which gives 3508. -/
theorem page_height_not_rounded :
    A4_HEIGHT_PX = 3507 ∧
    round (A4_HEIGHT_MM * MM_TO_INCH * (DPI : ℚ)) = 3508 ∧
    A4_HEIGHT_PX ≠ round (A4_HEIGHT_MM * MM_TO_INCH * (DPI : ℚ)) := by
  have h2 : round (A4_HEIGHT_MM * MM_TO_INCH * (DPI : ℚ)) = 3508 := by
    rw [round_eq]
    unfold A4_HEIGHT_MM MM_TO_INCH DPI
    rw [show (297 : ℚ) * (1 / 25.4) * ((300 : ℕ) : ℚ) + 1 / 2
          = ((891127 : ℤ) : ℚ) / ((254 : ℕ) : ℚ) by norm_num]
    rw [Rat.floor_intCast_div_natCast]
    decide
  exact ⟨A4_HEIGHT_PX_eq, h2, by rw [A4_HEIGHT_PX_eq, h2]; decide⟩

/-- C5 amended: the page pixel size is the truncation (floor, the values
being positive) of `page_mm * (1/25.4) * dpi`, giving `2480 × 3507` for A4
at 300 dpi — the width agrees with rounding, the height is one below it. -/
theorem page_px_truncated :
    A4_WIDTH_PX = 2480 ∧ A4_HEIGHT_PX = 3507 ∧
    (A4_HEIGHT_PX : ℚ) ≤ A4_HEIGHT_MM * MM_TO_INCH * (DPI : ℚ) ∧
    A4_HEIGHT_MM * MM_TO_INCH * (DPI : ℚ) < (A4_HEIGHT_PX : ℚ) + 1 :=
  ⟨A4_WIDTH_PX_eq, A4_HEIGHT_PX_eq, Int.floor_le _, Int.lt_floor_add_one _⟩

/-- C10: under the program's built-in constants (400×400 unit images, a
5 × 6 grid, the A4 page pixel size computed at 300 dpi) both spacings are
nonnegative and every placed rectangle lies inside the page, so no paste
is clipped at a page edge. -/
theorem builtin_layout_in_bounds :
    0 ≤ h_space mainParams ∧ 0 ≤ v_space mainParams ∧
    ∀ j, j < IMAGES_PER_PAGE →
      0 ≤ xOffset mainParams j ∧ xOffset mainParams j + SIZE ≤ A4_WIDTH_PX ∧
      0 ≤ yOffset mainParams j ∧ yOffset mainParams j + SIZE ≤ A4_HEIGHT_PX := by
  rw [mainParams_eq, A4_WIDTH_PX_eq, A4_HEIGHT_PX_eq]
  decide

/-- Witness for C10: the last cell of a page, index 29. -/
theorem builtin_layout_in_bounds_witness :
    29 < IMAGES_PER_PAGE ∧
    (0 ≤ xOffset mainParams 29 ∧ xOffset mainParams 29 + SIZE ≤ A4_WIDTH_PX ∧
      0 ≤ yOffset mainParams 29 ∧ yOffset mainParams 29 + SIZE ≤ A4_HEIGHT_PX) :=
  ⟨by decide, builtin_layout_in_bounds.2.2 29 (by decide)⟩

/-! ## Pagination lemmas -/

theorem chunks_nil (k : Nat) : chunks k ([] : List α) = [] := by
  rw [chunks]
  split
  · rfl
  · rfl

/-- Concatenating the batches gives back the input list. -/
theorem chunks_flatten (k : Nat) (hk : 0 < k) (l : List α) :
    (chunks k l).flatten = l := by
  suffices H : ∀ (n : Nat) (l : List α), l.length ≤ n → (chunks k l).flatten = l from
    H l.length l le_rfl
  intro n
  induction n with
  | zero =>
    intro l hl
    have h0 : l = [] := List.length_eq_zero.mp (Nat.le_zero.mp hl)
    subst h0
    rw [chunks_nil]
    rfl
  | succ n ih =>
    intro l hl
    rw [chunks, if_neg (by omega)]
    by_cases he : l.isEmpty
    · rw [if_pos he]
      simp [List.isEmpty_iff.mp he]
    · rw [if_neg he]
      have h0 : l ≠ [] := by simpa [List.isEmpty_iff] using he
      have hpos : 0 < l.length := List.length_pos.mpr h0
      have hlen : (l.drop k).length ≤ n := by
        simp only [List.length_drop]
        omega
      rw [List.flatten_cons, ih (l.drop k) hlen, List.take_append_drop]

/-- The number of batches is `(n + k - 1) / k` — the ceiling of `n / k`. -/
theorem chunks_length (k : Nat) (hk : 0 < k) (l : List α) :
    (chunks k l).length = (l.length + k - 1) / k := by
  suffices H : ∀ (n : Nat) (l : List α), l.length ≤ n →
      (chunks k l).length = (l.length + k - 1) / k from H l.length l le_rfl
  intro n
  induction n with
  | zero =>
    intro l hl
    have h0 : l = [] := List.length_eq_zero.mp (Nat.le_zero.mp hl)
    subst h0
    rw [chunks_nil]
    simp [Nat.div_eq_of_lt (show k - 1 < k by omega)]
  | succ n ih =>
    intro l hl
    rw [chunks, if_neg (by omega)]
    by_cases he : l.isEmpty
    · rw [if_pos he]
      rw [List.isEmpty_iff.mp he]
      simp [Nat.div_eq_of_lt (show k - 1 < k by omega)]
    · rw [if_neg he]
      have h0 : l ≠ [] := by simpa [List.isEmpty_iff] using he
      have hpos : 0 < l.length := List.length_pos.mpr h0
      have hlen : (l.drop k).length ≤ n := by
        simp only [List.length_drop]
        omega
      rw [List.length_cons, ih (l.drop k) hlen, List.length_drop]
      have hsum : l.length + k - 1 = (l.length - 1) + k := by omega
      rw [hsum, Nat.add_div_right _ hk]
      rcases le_or_lt l.length k with hle | hlt
      · have h1 : l.length - k = 0 := by omega
        rw [h1, Nat.div_eq_of_lt (show 0 + k - 1 < k by omega),
          Nat.div_eq_of_lt (show l.length - 1 < k by omega)]
      · have key : (l.length - 1) / k = (l.length - 1 - k) / k + 1 := by
          conv_lhs => rw [← Nat.sub_add_cancel (show k ≤ l.length - 1 by omega)]
          rw [Nat.add_div_right _ hk]
        rw [show l.length - k + k - 1 = l.length - 1 - k + k by omega,
          Nat.add_div_right _ hk]
        omega

/-- Batch `i` is exactly the source's slice `images[k*i : k*i + k]`. -/
theorem chunks_getElem (k : Nat) (hk : 0 < k) (l : List α) :
    ∀ i, i < (chunks k l).length → (chunks k l)[i]? = some ((l.drop (k * i)).take k) := by
  suffices H : ∀ (n : Nat) (l : List α), l.length ≤ n → ∀ i, i < (chunks k l).length →
      (chunks k l)[i]? = some ((l.drop (k * i)).take k) from H l.length l le_rfl
  intro n
  induction n with
  | zero =>
    intro l hl i hi
    have h0 : l = [] := List.length_eq_zero.mp (Nat.le_zero.mp hl)
    subst h0
    rw [chunks_nil] at hi
    simp at hi
  | succ n ih =>
    intro l hl i hi
    by_cases he : l.isEmpty
    · rw [chunks, if_neg (by omega), if_pos he] at hi
      simp at hi
    · have hch : chunks k l = l.take k :: chunks k (l.drop k) := by
        rw [chunks, if_neg (by omega), if_neg he]
      have h0 : l ≠ [] := by simpa [List.isEmpty_iff] using he
      have hpos : 0 < l.length := List.length_pos.mpr h0
      have hlen : (l.drop k).length ≤ n := by
        simp only [List.length_drop]
        omega
      rw [hch]
      cases i with
      | zero => simp
      | succ j =>
        rw [hch] at hi
        simp only [List.length_cons] at hi
        rw [List.getElem?_cons_succ, ih (l.drop k) hlen j (by omega),
          List.drop_drop, show k + k * j = k * (j + 1) by ring]

/-- Every batch is nonempty and holds at most `k` images. -/
theorem chunks_sizes (k : Nat) (hk : 0 < k) (l : List α) :
    ∀ b ∈ chunks k l, b ≠ [] ∧ b.length ≤ k := by
  suffices H : ∀ (n : Nat) (l : List α), l.length ≤ n → ∀ b ∈ chunks k l,
      b ≠ [] ∧ b.length ≤ k from H l.length l le_rfl
  intro n
  induction n with
  | zero =>
    intro l hl b hb
    have h0 : l = [] := List.length_eq_zero.mp (Nat.le_zero.mp hl)
    subst h0
    rw [chunks_nil] at hb
    simp at hb
  | succ n ih =>
    intro l hl b hb
    by_cases he : l.isEmpty
    · rw [chunks, if_neg (by omega), if_pos he] at hb
      simp at hb
    · rw [chunks, if_neg (by omega), if_neg he] at hb
      have h0 : l ≠ [] := by simpa [List.isEmpty_iff] using he
      have hpos : 0 < l.length := List.length_pos.mpr h0
      have hlen : (l.drop k).length ≤ n := by
        simp only [List.length_drop]
        omega
      rcases List.mem_cons.mp hb with hb | hb
      · subst hb
        constructor
        · intro hnil
          have := congrArg List.length hnil
          simp only [List.length_take, List.length_nil] at this
          omega
        · simpa [List.length_take] using min_le_left k l.length
      · exact ih (l.drop k) hlen b hb

/-- The Nat ceiling-division formula is the rational ceiling. -/
theorem ceil_ratio (n k : Nat) (hk : 0 < k) :
    (((n + k - 1) / k : Nat) : ℤ) = ⌈(n : ℚ) / (k : ℚ)⌉ := by
  set m : Nat := (n + k - 1) / k with hm
  have hub : m * k ≤ n + k - 1 := Nat.div_mul_le_self _ _
  have hlb : n + k - 1 < m * k + k := Nat.lt_div_mul_add hk
  have hn_le : n ≤ m * k := by omega
  have hlt : m * k < n + k := by omega
  have hlt' : (m : ℚ) * (k : ℚ) < (n : ℚ) + (k : ℚ) := by exact_mod_cast hlt
  have hle' : (n : ℚ) ≤ (m : ℚ) * (k : ℚ) := by exact_mod_cast hn_le
  symm
  rw [Int.ceil_eq_iff]
  constructor
  · rw [lt_div_iff₀ (by positivity)]
    push_cast
    nlinarith [hlt']
  · rw [div_le_iff₀ (by positivity)]
    push_cast
    nlinarith [hle']

/-- C2: pagination partitions the input into consecutive batches of size
`k = IMAGES_PER_PAGE` in input order — batch `i` is the slice
`images[k*i : k*i + k]`, nonempty and of size at most `k` (only the final
batch may be shorter, and it starts at cell 0) — concatenating all batches
reproduces the input exactly, the row-major rank of the cell an index is
placed at is that index itself, and the number of pages is
`ceil(n / k)` = `(n + k - 1) / k`. -/
theorem pagination_exact (k : Nat) (hk : 0 < k) (l : List α) :
    (chunks k l).flatten = l ∧
    (∀ i, i < (chunks k l).length →
      (chunks k l)[i]? = some ((l.drop (k * i)).take k)) ∧
    (∀ b ∈ chunks k l, b ≠ [] ∧ b.length ≤ k) ∧
    (∀ (p : GridParams) (j : Nat), rowOf p j * p.cols + colOf p j = j) ∧
    (chunks k l).length = (l.length + k - 1) / k ∧
    ((chunks k l).length : ℤ) = ⌈(l.length : ℚ) / (k : ℚ)⌉ := by
  refine ⟨chunks_flatten k hk l, chunks_getElem k hk l, chunks_sizes k hk l,
    ?_, chunks_length k hk l, ?_⟩
  · intro p j
    show j / p.cols * p.cols + j % p.cols = j
    rw [Nat.mul_comm]
    exact Nat.div_add_mod j p.cols
  · rw [chunks_length k hk l]
    exact ceil_ratio l.length k hk

/-- Witness for C2: 31 images (one more than a full page) paginate into
two batches that concatenate back to the input. -/
theorem pagination_exact_witness :
    (chunks IMAGES_PER_PAGE (List.range 31)).flatten = List.range 31 ∧
    (chunks IMAGES_PER_PAGE (List.range 31)).length
      = (31 + IMAGES_PER_PAGE - 1) / IMAGES_PER_PAGE :=
  ⟨(pagination_exact IMAGES_PER_PAGE (by decide) (List.range 31)).1,
    (pagination_exact IMAGES_PER_PAGE (by decide) (List.range 31)).2.2.2.2.1⟩

/-! ## CodeSequencer lemmas: the decimal value of a printed digit string -/

/-- The numeric value a digit string denotes (reading back what the `d`
format printed). -/
def digitsVal (l : List Char) : Nat :=
  l.foldl (fun a c => 10 * a + (c.toNat - 48)) 0

theorem char_toNat_ofNat_digit (d : Nat) (hd : d < 10) :
    (Char.ofNat (48 + d)).toNat = 48 + d := by
  interval_cases d <;> decide

theorem natDigits_mem_digit (n : Nat) :
    ∀ c ∈ natDigits n, 48 ≤ c.toNat ∧ c.toNat ≤ 57 := by
  induction n using Nat.strong_induction_on with
  | _ n ih =>
    rw [natDigits]
    split
    · rename_i h
      intro c hc
      rw [List.mem_singleton.mp hc, char_toNat_ofNat_digit n h]
      omega
    · rename_i h
      intro c hc
      rcases List.mem_append.mp hc with hc | hc
      · exact ih (n / 10) (Nat.div_lt_self (by omega) (by omega)) c hc
      · rw [List.mem_singleton.mp hc,
          char_toNat_ofNat_digit (n % 10) (Nat.mod_lt _ (by omega))]
        have := Nat.mod_lt n (show 0 < 10 by omega)
        omega

theorem digitsVal_append_digit (l : List Char) (c : Char) :
    digitsVal (l ++ [c]) = 10 * digitsVal l + (c.toNat - 48) := by
  unfold digitsVal
  rw [List.foldl_append]
  rfl

/-- Reading back the printed digits of `n` gives `n`. -/
theorem digitsVal_natDigits (n : Nat) : digitsVal (natDigits n) = n := by
  induction n using Nat.strong_induction_on with
  | _ n ih =>
    rw [natDigits]
    split
    · rename_i h
      simp only [digitsVal, List.foldl]
      rw [char_toNat_ofNat_digit n h]
      omega
    · rename_i h
      rw [digitsVal_append_digit, ih (n / 10) (Nat.div_lt_self (by omega) (by omega)),
        char_toNat_ofNat_digit (n % 10) (Nat.mod_lt _ (by omega))]
      omega

/-- Leading pad zeros do not change the value a digit string denotes. -/
theorem digitsVal_replicate_zero (m : Nat) (l : List Char) :
    digitsVal (List.replicate m '0' ++ l) = digitsVal l := by
  induction m with
  | zero => rfl
  | succ m ih =>
    rw [List.replicate_succ, List.cons_append]
    show digitsVal (List.replicate m '0' ++ l) = digitsVal l
    exact ih

theorem digitsVal_zfill (w : Nat) (l : List Char) :
    digitsVal (zfill w l) = digitsVal l :=
  digitsVal_replicate_zero _ _

theorem zfill_digits_lb (w n : Nat) :
    ∀ c ∈ zfill w (natDigits n), 48 ≤ c.toNat := by
  intro c hc
  rcases List.mem_append.mp hc with hc | hc
  · rw [List.eq_of_mem_replicate hc]
    decide
  · exact (natDigits_mem_digit n c hc).1

/-- Python's sign-aware zero-padded `d` format is injective on the
integers. -/
theorem intFormat_inj (a b : ℤ) (h : intFormat 4 a = intFormat 4 b) : a = b := by
  unfold intFormat at h
  split_ifs at h with ha hb hb
  · injection h with h1 h2
    have hv := congrArg digitsVal h2
    rw [digitsVal_zfill, digitsVal_zfill, digitsVal_natDigits, digitsVal_natDigits] at hv
    omega
  · exfalso
    have hm : '-' ∈ zfill 4 (natDigits b.toNat) := by
      rw [← h]
      exact List.mem_cons_self _ _
    exact absurd (zfill_digits_lb 4 b.toNat '-' hm) (by decide)
  · exfalso
    have hm : '-' ∈ zfill 4 (natDigits a.toNat) := by
      rw [h]
      exact List.mem_cons_self _ _
    exact absurd (zfill_digits_lb 4 a.toNat '-' hm) (by decide)
  · have hv := congrArg digitsVal h
    rw [digitsVal_zfill, digitsVal_zfill, digitsVal_natDigits, digitsVal_natDigits] at hv
    omega

theorem codeOf_inj (a b : ℤ) (h : codeOf a = codeOf b) : a = b := by
  apply intFormat_inj
  have hd : 'P' :: intFormat 4 a = 'P' :: intFormat 4 b := congrArg String.data h
  injection hd

/-- C6: for `start ≤ end` the sequencer yields exactly `end - start + 1`
codes — the `i`-th being the code of integer `start + i`, so they are in
strictly ascending order of the underlying integer — one code for every
integer of `[start, end]`, each the prefix `"P"` followed by the integer
zero-padded to 4 digits (that is `codeOf`, by definition), and the list has
no duplicates. -/
theorem sequencer_codes (start endI : ℤ) (h : start ≤ endI) :
    (codes start endI).length = (endI - start + 1).toNat ∧
    (∀ i (hi : i < (codes start endI).length),
      (codes start endI).get ⟨i, hi⟩ = codeOf (start + i)) ∧
    (∀ i : ℤ, start ≤ i → i ≤ endI → codeOf i ∈ codes start endI) ∧
    (codes start endI).Nodup := by
  refine ⟨?_, ?_, ?_, ?_⟩
  · unfold codes
    rw [List.length_map, List.length_range]
    omega
  · intro i hi
    unfold codes
    simp [List.get_eq_getElem, List.getElem_map, List.getElem_range]
  · intro i h1 h2
    unfold codes
    refine List.mem_map.mpr ⟨(i - start).toNat, List.mem_range.mpr ?_, ?_⟩
    · omega
    · congr 1
      omega
  · unfold codes
    refine List.Nodup.map ?_ (List.nodup_range _)
    intro x y hxy
    have hx := codeOf_inj _ _ hxy
    omega

/-- Witness for C6: the default-range head `301..303` gives three distinct
codes. -/
theorem sequencer_codes_witness :
    (codes 301 303).length = ((303 : ℤ) - 301 + 1).toNat ∧ (codes 301 303).Nodup :=
  ⟨(sequencer_codes 301 303 (by decide)).1, (sequencer_codes 301 303 (by decide)).2.2.2⟩

/-! ## Claim theorems: symbol composer and CLI -/

/-- C7: the symbol composer is deterministic — it reads no clock and no
randomness (the `Env` threaded through is never consulted), so for any
fixed collaborator model two calls with identical `code` and dimensions
produce byte-identical output. -/
theorem composer_deterministic (make : String → SegnoQR) (e1 e2 : Env)
    (code : String) (size qr_size : Nat) :
    generate_qr_svg make e1 code size qr_size
      = generate_qr_svg make e2 code size qr_size := rfl

/-- A concrete stand-in for the `segno` collaborator: version-1 QR (21
modules) with a fixed inline body. -/
def probeSegno : String → SegnoQR :=
  fun _ => { symbolSize := 21,
             svgInline := fun _ => "<svg height=\"21\"><path d=\"M0 0h21\"/></svg>" }

/-- C9 counterexample: with `symbol_edge_length = 300 >` canvas
`100 × 100` the composer raises nothing — it still produces a complete SVG
document (here its head), with the symbol group translated to the negative
offset `-100`. -/
theorem layout_constraint_not_raised :
    300 > min 100 100 ∧
    qrOffset 100 300 = -100 ∧
    ∃ rest, generate_qr_svg probeSegno { clock := 0, entropy := fun n => n } "P0001" 100 300
      = svgDocHead ++ rest := by
  refine ⟨by decide, by decide, ?_⟩
  unfold generate_qr_svg
  simp only [String.append_assoc]
  exact ⟨_, rfl⟩

/-- C9 amended: `generate_qr_svg` does not validate
`qr_size ≤ min(size, size)`; whenever `qr_size > size` it centers the
symbol at a negative offset and still returns the composed document
unconditionally. -/
theorem composer_no_size_validation (make : String → SegnoQR) (env : Env)
    (code : String) (size qr_size : Nat) (hover : size < qr_size) :
    qrOffset size qr_size < 0 ∧
    ∃ rest, generate_qr_svg make env code size qr_size = svgDocHead ++ rest := by
  constructor
  · unfold qrOffset
    apply fdiv_neg_of_neg _ _ (by omega) (by omega)
  · unfold generate_qr_svg
    simp only [String.append_assoc]
    exact ⟨_, rfl⟩

/-- Witness for C9's amended statement: a 300-pixel symbol on a 100-pixel
canvas. -/
theorem composer_no_size_validation_witness :
    qrOffset 100 300 < 0 ∧
    ∃ rest, generate_qr_svg probeSegno { clock := 1, entropy := fun n => n + 1 } "P0002" 100 300
      = svgDocHead ++ rest :=
  composer_no_size_validation probeSegno { clock := 1, entropy := fun n => n + 1 }
    "P0002" 100 300 (by omega)

/-- An inverted range yields no codes at all (`range(start, end+1)` is
empty when `start > end`). -/
theorem codes_empty_of_gt (start endI : ℤ) (h : endI < start) :
    codes start endI = [] := by
  unfold codes
  rw [show (endI + 1 - start).toNat = 0 by omega]
  rfl

/-- C8 counterexample: `argv = ["pr_qr_pdf.py", "5", "3"]` is an integer
range with `start > end`, yet the program terminates with exit status 0 —
not a non-zero status, no usage message, and no `InvalidRangeError` (the
source defines no such exception); it writes no file and prints
`"No PNGs generated!"`. -/
theorem invalid_range_exit_cex :
    mainRun ["pr_qr_pdf.py", "5", "3"]
      = { exitCode := 0, usageShown := false, filesWritten := [],
          finalMessage := "No PNGs generated!" } ∧
    (mainRun ["pr_qr_pdf.py", "5", "3"]).exitCode ≠ 1 := by
  refine ⟨by decide, by decide⟩

/-- C8 amended: a `start > end` integer range is not rejected — the run
writes no file, prints `"No PNGs generated!"`, and exits 0; a wrong
argument count exits 1 with the usage message; a non-integer argument dies
with an uncaught `ValueError`, exit 1 but with no usage message. -/
theorem cli_invalid_range_behavior (a b : String) (s e : ℤ)
    (ha : pyIntParse a = some s) (hb : pyIntParse b = some e) (hse : e < s) :
    mainRun ["pr_qr_pdf.py", a, b]
      = { exitCode := 0, usageShown := false, filesWritten := [],
          finalMessage := "No PNGs generated!" } ∧
    (mainRun ["pr_qr_pdf.py", "x", "3"]).exitCode = 1 ∧
    (mainRun ["pr_qr_pdf.py", "x", "3"]).usageShown = false ∧
    (mainRun ["pr_qr_pdf.py", "1", "2", "3"]).exitCode = 1 ∧
    (mainRun ["pr_qr_pdf.py", "1", "2", "3"]).usageShown = true := by
  refine ⟨?_, by decide, by decide, by decide, by decide⟩
  have hrun : mainRun ["pr_qr_pdf.py", a, b] = runRange s e := by
    unfold mainRun
    rw [show (["pr_qr_pdf.py", a, b] : List String).length = 3 from rfl]
    norm_num
    rw [ha, hb]
  rw [hrun]
  unfold runRange
  rw [codes_empty_of_gt s e hse]
  rfl

/-- Witness for C8's amended statement: the concrete inverted range `5..3`. -/
theorem cli_invalid_range_behavior_witness :
    mainRun ["pr_qr_pdf.py", "5", "3"]
      = { exitCode := 0, usageShown := false, filesWritten := [],
          finalMessage := "No PNGs generated!" } ∧
    (mainRun ["pr_qr_pdf.py", "x", "3"]).exitCode = 1 ∧
    (mainRun ["pr_qr_pdf.py", "x", "3"]).usageShown = false ∧
    (mainRun ["pr_qr_pdf.py", "1", "2", "3"]).exitCode = 1 ∧
    (mainRun ["pr_qr_pdf.py", "1", "2", "3"]).usageShown = true :=
  cli_invalid_range_behavior "5" "3" 5 3 (by decide) (by decide) (by decide)

end PrQrPdf
